import Mathlib

set_option maxRecDepth 20000

/-!
Verification of the OmniStream condition-monitoring core.

Shallow embedding of the PdM worker pipeline
(client/src/workers/pdm.worker.ts) and of the telemetry historian
(client/src/utils/Historian.ts, which also carries the list-based
regression and RUL utility functions at its tail).

JavaScript numbers are embedded as rationals (exact arithmetic); the
claims under study are control-flow and algebraic properties that are
exact over the rationals.  Mutable objects become explicit state
records; `Float64Array` ring buffers become functions from indices to
rationals together with head/count bookkeeping, written with
`Function.update` exactly where the source assigns a slot.
-/

-- ─── Shared scalar helpers ───────────────────────────────────

/-- JavaScript `Math.abs` on an embedded number. -/
def jsAbs (q : ℚ) : ℚ := if q < 0 then -q else q

/-- Middle element of `[a, b, c].sort((x, y) => x - y)` (the source sorts the
three RUL slots ascending and reads index 1). -/
def median3 (a b c : ℚ) : ℚ :=
  if a ≤ b then
    if b ≤ c then b else if a ≤ c then c else a
  else
    if a ≤ c then a else if b ≤ c then c else b

-- ─── pdm.worker.ts: inline math ──────────────────────────────

/-- `calculateEMA` of pdm.worker.ts (also `calculateEMA` in the Historian
utility tail): cold start returns the current value unchanged. -/
def calculateEMA (current : ℚ) (previous : Option ℚ) (alpha : ℚ) : ℚ :=
  match previous with
  | none => current
  | some p => current * alpha + p * (1 - alpha)

/-- Index of the i-th populated slot visited by the circular-buffer loops of
pdm.worker.ts: `start = (head - count + capacity) % capacity`, then
`(start + i) % capacity`.  The subtraction is done over ℤ as in JS. -/
def bufIdx (head count capacity i : ℕ) : ℕ :=
  ((((head : ℤ) - count + capacity) % capacity).toNat + i) % capacity

/-- Shared least-squares slope computation: the loop of
`calculateLinearRegressionTyped` / `calculateLinearRegression` accumulating
sumX, sumY, sumXY, sumX2 over the visited points, then the mean-based
numerator/denominator with the `den === 0` guard. -/
def slopeOfPoints (pts : List (ℚ × ℚ)) : ℚ :=
  if pts.length < 2 then 0
  else
    let sums := pts.foldl
      (fun (acc : ℚ × ℚ × ℚ × ℚ) p =>
        (acc.1 + p.1, acc.2.1 + p.2, acc.2.2.1 + p.1 * p.2, acc.2.2.2 + p.1 * p.1))
      (0, 0, 0, 0)
    let sumX := sums.1
    let sumY := sums.2.1
    let sumXY := sums.2.2.1
    let sumX2 := sums.2.2.2
    let n : ℚ := pts.length
    let xMean := sumX / n
    let yMean := sumY / n
    let num := sumXY - n * xMean * yMean
    let den := sumX2 - n * xMean * xMean
    if den = 0 then 0 else num / den

/-- `calculateLinearRegressionTyped` of pdm.worker.ts: regression over the
populated portion of a circular typed-array pair.  The loop over
`i < count` reading `(start + i) % capacity` is rendered as the point list
indexed by `bufIdx`. -/
def calculateLinearRegressionTyped (xBuf yBuf : ℕ → ℚ) (head count capacity : ℕ) : ℚ :=
  slopeOfPoints ((List.range count).map
    (fun i => (xBuf (bufIdx head count capacity i), yBuf (bufIdx head count capacity i))))

/-- `calculateLinearRegression` of the Historian utility tail: same
computation over an explicit list of (x, y) pairs. -/
def calculateLinearRegression (dataPoints : List (ℚ × ℚ)) : ℚ :=
  slopeOfPoints dataPoints

/-- `calculateRUL` of pdm.worker.ts: threshold check first, then noise
floor 4.0, then minimum slope 0.01, then projection capped at 120 (999 is
the "stable" sentinel). -/
def calculateRUL (current slope threshold : ℚ) : ℚ :=
  if current ≥ threshold then 0
  else if current < 4 then 999
  else if slope ≤ 1 / 100 then 999
  else
    let rul := (threshold - current) / slope
    if rul > 120 then 999 else rul

/-- Result type of the Historian-tail RUL variant, whose stable sentinel is
the IEEE Infinity value. -/
inductive HRul where
  | val (q : ℚ)
  | inf
deriving DecidableEq

/-- `calculateRUL` of the Historian utility tail (Historian.ts:173): the
`slope <= 0` guard comes FIRST and returns Infinity; only afterwards is the
remaining headroom compared with 0. -/
def calculateRULHist (currentVibration slope criticalThreshold : ℚ) : HRul :=
  if slope ≤ 0 then HRul.inf
  else
    let remainingVibrationToThreshold := criticalThreshold - currentVibration
    if remainingVibrationToThreshold ≤ 0 then HRul.val 0
    else HRul.val (remainingVibrationToThreshold / slope)

-- ─── pdm.worker.ts: worker state ─────────────────────────────

abbrev RAW_BUFFER_SIZE : ℕ := 50
abbrev BUFFER_SIZE : ℕ := 250

inductive TempStatus where
  | nominal
  | warning
  | critical
deriving DecidableEq

structure PdMState where
  smoothedVibration : ℚ
  degradationSlope : ℚ
  estimatedRUL : ℚ
  smoothedTemperature : ℚ
  temperatureStatus : TempStatus
deriving DecidableEq

/-- One entry of the `updates` batch sent to the worker. -/
structure Update where
  id : String
  timestamp : ℚ
  vibration : ℚ
  temperature : ℚ
deriving DecidableEq

/-- The 3-slot RUL median filter state (`rulBuffer`, `rulHead`). -/
structure RulFilter where
  buf : ℕ → ℚ
  head : ℕ

/-- `TurbineState` of pdm.worker.ts. -/
structure TurbineState where
  vibBuffer : ℕ → ℚ
  vibHead : ℕ
  vibCount : ℕ
  pointsSinceLastProcess : ℕ
  trendTsBuffer : ℕ → ℚ
  trendEmaBuffer : ℕ → ℚ
  trendHead : ℕ
  trendCount : ℕ
  lastEMA : Option ℚ
  lastTempEMA : Option ℚ
  rulBuffer : ℕ → ℚ
  rulHead : ℕ
  currentPdM : PdMState

/-- Freshly constructed `TurbineState`: zeroed buffers, `rulBuffer`
pre-filled with 999, RUL 999, nominal temperature. -/
def TurbineState.init : TurbineState :=
  { vibBuffer := fun _ => 0
    vibHead := 0
    vibCount := 0
    pointsSinceLastProcess := 0
    trendTsBuffer := fun _ => 0
    trendEmaBuffer := fun _ => 0
    trendHead := 0
    trendCount := 0
    lastEMA := none
    lastTempEMA := none
    rulBuffer := fun _ => 999
    rulHead := 0
    currentPdM :=
      { smoothedVibration := 0
        degradationSlope := 0
        estimatedRUL := 999
        smoothedTemperature := 0
        temperatureStatus := TempStatus.nominal } }

/-- `TurbineState.pushVib`. -/
def pushVib (st : TurbineState) (value : ℚ) : TurbineState :=
  { st with
      vibBuffer := Function.update st.vibBuffer (st.vibHead % RAW_BUFFER_SIZE) value
      vibHead := st.vibHead + 1
      vibCount := if st.vibCount < RAW_BUFFER_SIZE then st.vibCount + 1 else st.vibCount
      pointsSinceLastProcess := st.pointsSinceLastProcess + 1 }

/-- `TurbineState.peakVib`: peak absolute value over the populated raw
window. -/
def peakVib (st : TurbineState) : ℚ :=
  (List.range st.vibCount).foldl
    (fun peak i =>
      let v := jsAbs (st.vibBuffer (bufIdx st.vibHead st.vibCount RAW_BUFFER_SIZE i))
      if v > peak then v else peak)
    0

/-- `TurbineState.pushTrend`: writes the (timestamp, ema) pair at
`trendHead % BUFFER_SIZE`. -/
def pushTrend (st : TurbineState) (ts ema : ℚ) : TurbineState :=
  { st with
      trendTsBuffer := Function.update st.trendTsBuffer (st.trendHead % BUFFER_SIZE) ts
      trendEmaBuffer := Function.update st.trendEmaBuffer (st.trendHead % BUFFER_SIZE) ema
      trendHead := st.trendHead + 1
      trendCount := if st.trendCount < BUFFER_SIZE then st.trendCount + 1 else st.trendCount }

/-- The decimation condition of the worker loop, evaluated on the
post-push state: `vibCount >= RAW_BUFFER_SIZE && pointsSinceLastProcess >=
RAW_BUFFER_SIZE`. -/
def decimationFires (s : TurbineState) : Prop :=
  s.vibCount ≥ RAW_BUFFER_SIZE ∧ s.pointsSinceLastProcess ≥ RAW_BUFFER_SIZE

instance (s : TurbineState) : Decidable (decimationFires s) :=
  inferInstanceAs (Decidable (_ ∧ _))

/-- The RUL hysteresis step inlined in the worker loop: extreme raw values
(0 and the 999 sentinel) fill all three slots and bypass the median;
otherwise the raw value overwrites slot `rulHead % 3`, the head advances,
and the output is the median of the three slots after the write. -/
def hysteresisStep (f : RulFilter) (rawRul : ℚ) : RulFilter × ℚ :=
  let f1 : RulFilter :=
    if rawRul = 0 then { buf := fun _ => 0, head := f.head }
    else if rawRul = 999 then { buf := fun _ => 999, head := f.head }
    else { buf := Function.update f.buf (f.head % 3) rawRul, head := f.head + 1 }
  let smoothedRul :=
    if rawRul ≠ 0 ∧ rawRul ≠ 999 then median3 (f1.buf 0) (f1.buf 1) (f1.buf 2)
    else rawRul
  (f1, smoothedRul)

/-- The body of the worker loop once the decimation condition fired, taking
the post-push state: reset the counter, peak, amplitude EMA (alpha 0.1),
trend push, burn-in-gated regression and RUL against the critical vibration
limit 11.2, hysteresis, thermal EMA (alpha 0.05) and 940/955 banding, and
snapshot assignment. -/
def firingUpdate (s : TurbineState) (u : Update) : TurbineState :=
  let s1 := { s with pointsSinceLastProcess := 0 }
  let peakAmplitude := peakVib s1
  let ema := calculateEMA peakAmplitude s1.lastEMA (1 / 10)
  let s2 := { s1 with lastEMA := some ema }
  let s3 := pushTrend s2 u.timestamp ema
  let slopeRul : ℚ × ℚ :=
    if s3.trendCount ≥ BUFFER_SIZE then
      let slope := calculateLinearRegressionTyped s3.trendTsBuffer s3.trendEmaBuffer
        s3.trendHead s3.trendCount BUFFER_SIZE
      (slope, calculateRUL ema slope (56 / 5))
    else (0, 999)
  let f := hysteresisStep { buf := s3.rulBuffer, head := s3.rulHead } slopeRul.2
  let s4 := { s3 with rulBuffer := f.1.buf, rulHead := f.1.head }
  let tempEma := calculateEMA u.temperature s4.lastTempEMA (1 / 20)
  let tempStatus : TempStatus :=
    if tempEma ≥ 955 then TempStatus.critical
    else if tempEma ≥ 940 then TempStatus.warning
    else TempStatus.nominal
  { s4 with
      lastTempEMA := some tempEma
      currentPdM :=
        { smoothedVibration := ema
          degradationSlope := slopeRul.1
          estimatedRUL := f.2
          smoothedTemperature := tempEma
          temperatureStatus := tempStatus } }

/-- One iteration of the worker loop body for one update: push the raw
vibration, then run the decimated pipeline when the condition fires. -/
def processUpdate (st : TurbineState) (u : Update) : TurbineState :=
  let s := pushVib st u.vibration
  if decimationFires s then firingUpdate s u else s

/-- A constant update stream used for concrete executions: timestamp 777,
vibration 5, temperature 900 on turbine T-01. -/
def u777 : Update :=
  { id := "T-01", timestamp := 777, vibration := 5, temperature := 900 }

/-- State after n copies of `u777` from a fresh turbine state. -/
def runN : ℕ → TurbineState
  | 0 => TurbineState.init
  | n + 1 => processUpdate (runN n) u777

/-- Modelled from the spec formula of claim C8: the ordinary-least-squares
slope (N Σxy − Σx Σy) / (N Σx² − (Σx)²) over the populated points when the
denominator is nonzero and at least 2 points are populated, else 0. -/
def olsSlopeSpec (pts : List (ℚ × ℚ)) : ℚ :=
  let N : ℚ := pts.length
  let Sx := (pts.map Prod.fst).sum
  let Sy := (pts.map Prod.snd).sum
  let Sxy := (pts.map (fun p => p.1 * p.2)).sum
  let Sxx := (pts.map (fun p => p.1 * p.1)).sum
  if 2 ≤ pts.length ∧ N * Sxx - Sx * Sx ≠ 0 then
    (N * Sxy - Sx * Sy) / (N * Sxx - Sx * Sx)
  else 0

/-- Bookkeeping invariant maintained by the worker loop: the decimation
counter stays strictly below the window size between firings, never exceeds
the number of buffered raw samples, and the window count is capped. -/
def pdmInv (st : TurbineState) : Prop :=
  st.pointsSinceLastProcess < RAW_BUFFER_SIZE ∧
  st.pointsSinceLastProcess ≤ st.vibCount ∧
  st.vibCount ≤ RAW_BUFFER_SIZE

instance (st : TurbineState) : Decidable (pdmInv st) :=
  inferInstanceAs (Decidable (_ ∧ _ ∧ _))

/-- A fresh hysteresis filter: the three slots pre-filled with 999 and head
0, as in a fresh `TurbineState`. -/
def freshFilter : RulFilter := { buf := fun _ => 999, head := 0 }

/-- Modelled from the claim wording of C3 (the reference definition the
filter step is compared against): if the raw RUL is 0 or the stable
sentinel, all three slots are set to that extreme value and it is the
output; otherwise the raw value first overwrites the oldest of the three
slots (the one at the ring head) and the output is the median of the three
slots afterwards. -/
def hysteresisRefStep (f : RulFilter) (raw : ℚ) : RulFilter × ℚ :=
  if raw = 0 ∨ raw = 999 then ({ buf := fun _ => raw, head := f.head }, raw)
  else
    let f1 : RulFilter := { buf := Function.update f.buf (f.head % 3) raw, head := f.head + 1 }
    (f1, median3 (f1.buf 0) (f1.buf 1) (f1.buf 2))

-- ─── Historian.ts: telemetry historian ───────────────────────

/-- A raw telemetry record: turbine id, timestamp t, rpm r, vibration v,
temperature c. -/
structure TelemetryPayload where
  id : String
  t : ℚ
  r : ℚ
  v : ℚ
  c : ℚ
deriving DecidableEq

/-- The per-turbine circular buffer record held in the historian fleet
map. -/
structure EntState where
  buffer : ℕ → Option TelemetryPayload
  head : ℕ
  count : ℕ

/-- The historian: capacity plus the fleet map from turbine id to its
circular buffer. -/
structure TelemetryHistorian where
  size : ℕ
  fleet : String → Option EntState

/-- A freshly ensured turbine entry: null-filled buffer, head 0, count 0. -/
def emptyEnt : EntState := { buffer := fun _ => none, head := 0, count := 0 }

/-- The `TelemetryHistorian` constructor: records the capacity and ensures
the three fixed turbines. -/
def mkHistorian (size : ℕ) : TelemetryHistorian :=
  { size := size
    fleet := Function.update (Function.update (Function.update
      (fun _ => none) "T-01" (some emptyEnt)) "T-02" (some emptyEnt)) "T-03" (some emptyEnt) }

/-- The per-entity effect of `add`: write the payload at the head slot,
advance the head mod size, cap the count at size. -/
def addEnt (size : ℕ) (e : EntState) (p : TelemetryPayload) : EntState :=
  { buffer := Function.update e.buffer e.head (some p)
    head := (e.head + 1) % size
    count := if e.count < size then e.count + 1 else e.count }

/-- `TelemetryHistorian.add`: ensure the entry for the payload's turbine
exists, then write the payload into its circular buffer. -/
def TelemetryHistorian.add (h : TelemetryHistorian) (p : TelemetryPayload) :
    TelemetryHistorian :=
  let e := match h.fleet p.id with
    | some e => e
    | none => emptyEnt
  { h with fleet := Function.update h.fleet p.id (some (addEnt h.size e p)) }

/-- A sequence of `add` calls. -/
def addAll (h : TelemetryHistorian) (ps : List TelemetryPayload) : TelemetryHistorian :=
  ps.foldl TelemetryHistorian.add h

/-- The per-entity fold of `add` effects from a fresh entry. -/
def entFold (size : ℕ) (ps : List TelemetryPayload) : EntState :=
  ps.foldl (addEnt size) emptyEnt

/-- The body of `getRecent` once the turbine entry was found: start at the
oldest slot, fetch only the last `min total maxCount` items, skipping null
slots. -/
def getRecentEnt (size : ℕ) (tState : EntState) (maxCount : ℕ) : List TelemetryPayload :=
  if tState.count = 0 then []
  else
    let start := if tState.count < size then 0 else tState.head
    let total := tState.count
    let fetchCount := min total maxCount
    let fetchStart := total - fetchCount
    (List.range fetchCount).filterMap
      (fun i => tState.buffer ((start + fetchStart + i) % size))

/-- `TelemetryHistorian.getRecent`: empty for an unknown turbine or an
empty buffer, else the most recent `maxCount` records oldest-to-newest. -/
def TelemetryHistorian.getRecent (h : TelemetryHistorian) (id : String)
    (maxCount : ℕ) : List TelemetryPayload :=
  match h.fleet id with
  | none => []
  | some tState => getRecentEnt h.size tState maxCount

inductive CondLabel where
  | NOMINAL
  | WARNING
  | CRITICAL
deriving DecidableEq

/-- The per-row condition derivation of `exportCSV`: the absolute raw
vibration against the static limits 12.0 (critical) and 7.0 (warning). -/
def condOf (v : ℚ) : CondLabel :=
  if jsAbs v ≥ 12 then CondLabel.CRITICAL
  else if jsAbs v ≥ 7 then CondLabel.WARNING
  else CondLabel.NOMINAL

/-- One CSV cell of a data row: an ISO-rendered timestamp, a numeric cell
(the source formats these with toFixed(2)), or the condition label. -/
inductive CsvCell where
  | iso (t : ℚ)
  | num (x : ℚ)
  | cnd (c : CondLabel)
deriving DecidableEq

/-- The data row `exportCSV` writes for one buffer entry, with the cells in
the order the source interpolates them: timestamp, rpm (r), vibration (v),
temperature (c), condition from the raw vibration. -/
def rowOf (p : TelemetryPayload) : List CsvCell :=
  [CsvCell.iso p.t, CsvCell.num p.r, CsvCell.num p.v, CsvCell.num p.c,
   CsvCell.cnd (condOf p.v)]

/-- Modelled from the spec wording of claim C6: a row in the order
timestamp_iso, amplitude (vibration), secondary_raw_value (rpm),
temperature, condition_label, condition from the absolute raw amplitude. -/
def specRowOf (p : TelemetryPayload) : List CsvCell :=
  [CsvCell.iso p.t, CsvCell.num p.v, CsvCell.num p.r, CsvCell.num p.c,
   CsvCell.cnd (condOf p.v)]

/-- The body of the `exportCSV` data-row loop once the turbine entry was
found: scan from the oldest slot to the newest, emitting a row per non-null
entry. -/
def exportRowsEnt (size : ℕ) (tState : EntState) : List (List CsvCell) :=
  if tState.count = 0 then []
  else
    let start := if tState.count < size then 0 else tState.head
    (List.range tState.count).filterMap
      (fun i => (tState.buffer ((start + i) % size)).map rowOf)

/-- The data rows of `TelemetryHistorian.exportCSV` (the four header lines
of the emitted text precede them; the browser-download plumbing is out of
scope). -/
def exportRows (h : TelemetryHistorian) (turbineId : String) : List (List CsvCell) :=
  match h.fleet turbineId with
  | none => []
  | some tState => exportRowsEnt h.size tState

/-- Concrete payloads for witness runs: id T-01, timestamp/vibration i. -/
def wp (i : ℚ) : TelemetryPayload := { id := "T-01", t := i, r := 3500, v := i, c := 900 }

/-- The first pre-created turbine id. -/
def t01 : String := "T-01"

/-- Seven records, amplitudes 1..7. -/
def ps7 : List TelemetryPayload := [wp 1, wp 2, wp 3, wp 4, wp 5, wp 6, wp 7]

/-- Three records, amplitudes 1..3. -/
def ps3 : List TelemetryPayload := [wp 1, wp 2, wp 3]

-- ─── Theorems ────────────────────────────────────────────────

/-- Claim C1 counterexample: the Historian-tail RUL variant does NOT return
0 whenever current ≥ threshold: at current 70, slope -1, threshold 60 the
threshold is exceeded yet the result is the Infinity sentinel, because the
`slope <= 0` branch takes priority. -/
theorem c1_hist_threshold_not_first :
    (70 : ℚ) ≥ 60 ∧ calculateRULHist 70 (-1) 60 ≠ HRul.val 0 := by
  constructor
  · norm_num
  · decide

/-- Claim C1 (amended): the worker RUL estimator returns 0 for every slope
whenever current ≥ threshold (its threshold branch takes priority over all
others); the Historian-tail variant gives its `slope ≤ 0` branch priority,
so there current ≥ threshold yields 0 only when the slope is positive, and
yields the Infinity sentinel otherwise. -/
theorem c1_rul_failed_state (current slope threshold : ℚ) :
    (current ≥ threshold → calculateRUL current slope threshold = 0) ∧
    (0 < slope → current ≥ threshold →
      calculateRULHist current slope threshold = HRul.val 0) ∧
    (slope ≤ 0 → calculateRULHist current slope threshold = HRul.inf) := by
  refine ⟨fun h => ?_, fun hs h => ?_, fun hs => ?_⟩
  · simp [calculateRUL, h]
  · have h1 : ¬ slope ≤ 0 := not_le.mpr hs
    have h2 : threshold - current ≤ 0 := by linarith
    simp [calculateRULHist, h1, h2]
  · simp [calculateRULHist, hs]

/-- Claim C1 witness: concrete instances of the three amended branches. -/
theorem c1_rul_failed_state_witness :
    calculateRUL 70 (-1) 60 = 0 ∧
    calculateRULHist 70 1 60 = HRul.val 0 ∧
    calculateRULHist 70 (-1) 60 = HRul.inf :=
  ⟨(c1_rul_failed_state 70 (-1) 60).1 (by norm_num),
   (c1_rul_failed_state 70 1 60).2.1 (by norm_num) (by norm_num),
   (c1_rul_failed_state 70 (-1) 60).2.2 (by norm_num)⟩

/-- Claim C4 counterexample: with slope 1/50 (above the 1/100 minimum),
threshold 56/5 and currents 4 < 41/10 both above the noise floor and below
the threshold, both projections exceed the 120 horizon cap, so both return
the 999 sentinel and the RUL does not strictly decrease. -/
theorem c4_monotonicity_fails_at_cap :
    (1 / 100 : ℚ) < 1 / 50 ∧ (4 : ℚ) ≤ 4 ∧ (4 : ℚ) < 41 / 10 ∧ (41 / 10 : ℚ) < 56 / 5 ∧
    ¬ calculateRUL (41 / 10) (1 / 50) (56 / 5) < calculateRUL 4 (1 / 50) (56 / 5) := by
  refine ⟨by norm_num, le_refl 4, by norm_num, by norm_num, ?_⟩
  have h1 : calculateRUL (41 / 10) (1 / 50) (56 / 5) = 999 := by
    norm_num [calculateRUL]
  have h2 : calculateRUL 4 (1 / 50) (56 / 5) = 999 := by
    norm_num [calculateRUL]
  rw [h1, h2]
  exact lt_irrefl 999

/-- Claim C4 (amended): holding the slope fixed above the 1/100 minimum,
for currents at or above the noise floor with current1 < current2 <
threshold, the returned RUL strictly decreases, PROVIDED the projection for
the smaller current does not exceed the 120 horizon cap (otherwise both
sides can clamp to the 999 sentinel). -/
theorem c4_rul_monotone (slope current1 current2 threshold : ℚ)
    (hslope : 1 / 100 < slope) (hfloor : 4 ≤ current1)
    (h12 : current1 < current2) (h2t : current2 < threshold)
    (hcap : (threshold - current1) / slope ≤ 120) :
    calculateRUL current2 slope threshold < calculateRUL current1 slope threshold := by
  have hspos : 0 < slope := lt_trans (by norm_num) hslope
  have h1t : current1 < threshold := lt_trans h12 h2t
  have hproj : (threshold - current2) / slope < (threshold - current1) / slope := by
    exact (div_lt_div_iff_of_pos_right hspos).mpr (by linarith)
  have e1 : calculateRUL current1 slope threshold = (threshold - current1) / slope := by
    unfold calculateRUL
    rw [if_neg (not_le.mpr h1t), if_neg (not_lt.mpr hfloor),
      if_neg (not_le.mpr hslope), if_neg (not_lt.mpr hcap)]
  have e2 : calculateRUL current2 slope threshold = (threshold - current2) / slope := by
    unfold calculateRUL
    rw [if_neg (not_le.mpr h2t), if_neg (not_lt.mpr (by linarith)),
      if_neg (not_le.mpr hslope), if_neg (not_lt.mpr (by linarith))]
  rw [e1, e2]
  exact hproj

/-- Claim C4 witness: slope 1, currents 4 and 5, threshold 10: RUL drops
from 6 to 5. -/
theorem c4_rul_monotone_witness :
    calculateRUL 5 1 10 < calculateRUL 4 1 10 :=
  c4_rul_monotone 1 4 5 10 (by norm_num) (by norm_num) (by norm_num)
    (by norm_num) (by norm_num)

/-- Claim C3: the worker RUL hysteresis step equals the reference
definition (extreme raw values fill all slots and bypass the median;
otherwise overwrite-the-oldest-slot first, then output the median of the
three slots), and feeding raw RULs [10, 999, 10] into a fresh filter never
yields a filtered output of 10. -/
theorem c3_hysteresis_ref :
    (∀ (f : RulFilter) (raw : ℚ), hysteresisStep f raw = hysteresisRefStep f raw) ∧
    (hysteresisStep freshFilter 10).2 ≠ 10 ∧
    (hysteresisStep (hysteresisStep freshFilter 10).1 999).2 ≠ 10 ∧
    (hysteresisStep (hysteresisStep (hysteresisStep freshFilter 10).1 999).1 10).2 ≠ 10 := by
  refine ⟨fun f raw => ?_, by decide, by decide, by decide⟩
  by_cases h0 : raw = 0
  · subst h0
    simp [hysteresisStep, hysteresisRefStep]
  · by_cases h9 : raw = 999
    · subst h9
      simp [hysteresisStep, hysteresisRefStep]
    · simp [hysteresisStep, hysteresisRefStep, h0, h9]

/-- Branch lemma: when the decimation condition fires for the pushed
sample, the loop body runs the decimated pipeline. -/
theorem processUpdate_fires (st : TurbineState) (u : Update)
    (h : decimationFires (pushVib st u.vibration)) :
    processUpdate st u = firingUpdate (pushVib st u.vibration) u := by
  show (if decimationFires (pushVib st u.vibration)
    then firingUpdate (pushVib st u.vibration) u
    else pushVib st u.vibration) = firingUpdate (pushVib st u.vibration) u
  rw [if_pos h]

/-- Branch lemma: when the decimation condition does not fire, the loop
body only pushes the raw sample. -/
theorem processUpdate_skip (st : TurbineState) (u : Update)
    (h : ¬ decimationFires (pushVib st u.vibration)) :
    processUpdate st u = pushVib st u.vibration := by
  show (if decimationFires (pushVib st u.vibration)
    then firingUpdate (pushVib st u.vibration) u
    else pushVib st u.vibration) = pushVib st u.vibration
  rw [if_neg h]

/-- The decimated pipeline body resets the counter to 0. -/
theorem firingUpdate_points (s : TurbineState) (u : Update) :
    (firingUpdate s u).pointsSinceLastProcess = 0 := rfl

/-- The decimated pipeline body does not change the raw-window count. -/
theorem firingUpdate_vibCount (s : TurbineState) (u : Update) :
    (firingUpdate s u).vibCount = s.vibCount := rfl

/-- The decimated pipeline body advances the trend head by one. -/
theorem firingUpdate_trendHead (s : TurbineState) (u : Update) :
    (firingUpdate s u).trendHead = s.trendHead + 1 := rfl

/-- The decimated pipeline body does not change the temperature EMA cell of
anything but the final assignment. -/
theorem firingUpdate_lastTempEMA (s : TurbineState) (u : Update) :
    (firingUpdate s u).lastTempEMA =
      some (calculateEMA u.temperature s.lastTempEMA (1 / 20)) := rfl

/-- The trend timestamp buffer written by the decimated pipeline body. -/
theorem firingUpdate_trendTs (s : TurbineState) (u : Update) :
    (firingUpdate s u).trendTsBuffer =
      Function.update s.trendTsBuffer (s.trendHead % BUFFER_SIZE) u.timestamp := rfl

/-- The worker invariant holds initially. -/
theorem pdmInv_init : pdmInv TurbineState.init := by decide

/-- The worker invariant is preserved by every processed update. -/
theorem pdmInv_step (st : TurbineState) (u : Update) (h : pdmInv st) :
    pdmInv (processUpdate st u) := by
  obtain ⟨h1, h2, h3⟩ := h
  by_cases hf : decimationFires (pushVib st u.vibration)
  · rw [processUpdate_fires st u hf]
    refine ⟨?_, ?_, ?_⟩
    · rw [firingUpdate_points]
      norm_num
    · rw [firingUpdate_points]
      exact Nat.zero_le _
    · rw [firingUpdate_vibCount]
      show (if st.vibCount < RAW_BUFFER_SIZE then st.vibCount + 1 else st.vibCount) ≤ _
      split <;> omega
  · rw [processUpdate_skip st u hf]
    have hf2 : ¬ ((if st.vibCount < RAW_BUFFER_SIZE then st.vibCount + 1 else st.vibCount)
        ≥ RAW_BUFFER_SIZE ∧ st.pointsSinceLastProcess + 1 ≥ RAW_BUFFER_SIZE) := hf
    refine ⟨?_, ?_, ?_⟩
    · show st.pointsSinceLastProcess + 1 < RAW_BUFFER_SIZE
      by_cases hv : st.vibCount < RAW_BUFFER_SIZE
      · simp only [hv, if_true] at hf2
        omega
      · simp only [hv, if_false] at hf2
        omega
    · show st.pointsSinceLastProcess + 1 ≤
        (if st.vibCount < RAW_BUFFER_SIZE then st.vibCount + 1 else st.vibCount)
      split <;> omega
    · show (if st.vibCount < RAW_BUFFER_SIZE then st.vibCount + 1 else st.vibCount) ≤ _
      split <;> omega

/-- Claim C2 counterexample: running 50 samples of `u777` (timestamp 777)
from a fresh state makes the decimation condition fire on the 50th sample;
the appended trend point is the first of the decimated sequence (position
0, trend head 0 beforehand), yet the stored independent variable is the
wall-clock timestamp 777, not the position 0. -/
theorem c2_x_is_wallclock_not_index :
    decimationFires (pushVib (runN 49) u777.vibration) ∧
    (runN 49).trendHead = 0 ∧
    (runN 50).trendTsBuffer 0 = 777 ∧
    (777 : ℚ) ≠ 0 := by
  refine ⟨by decide, by decide, by decide, by norm_num⟩

/-- Claim C2 (amended): on every firing decimation tick, the independent
variable stored in the trend buffer for the appended point is the update's
wall-clock timestamp (so the regression slope is in amplitude units per
unit of the incoming timestamp, not per decimation tick). -/
theorem c2_trend_x_is_timestamp (st : TurbineState) (u : Update)
    (h : decimationFires (pushVib st u.vibration)) :
    (processUpdate st u).trendTsBuffer (st.trendHead % BUFFER_SIZE) = u.timestamp ∧
    (processUpdate st u).trendHead = st.trendHead + 1 := by
  rw [processUpdate_fires st u h]
  refine ⟨?_, firingUpdate_trendHead _ _⟩
  rw [firingUpdate_trendTs]
  have hh : (pushVib st u.vibration).trendHead = st.trendHead := rfl
  rw [hh]
  exact Function.update_same _ _ _

/-- Claim C2 witness: the amended statement applied to the concrete firing
tick of the 50-sample run. -/
theorem c2_trend_x_is_timestamp_witness :
    decimationFires (pushVib (runN 49) u777.vibration) ∧
    ((processUpdate (runN 49) u777).trendTsBuffer ((runN 49).trendHead % BUFFER_SIZE)
        = u777.timestamp ∧
      (processUpdate (runN 49) u777).trendHead = (runN 49).trendHead + 1) :=
  ⟨by decide, c2_trend_x_is_timestamp (runN 49) u777 (by decide)⟩

/-- Claim C7: on a firing decimation tick whose trend-buffer population
(after the tick's own trend push) is still below the full capacity, no
regression or projection is computed: the snapshot records slope 0 and the
999 stable sentinel.  The embedded step is a total function, so no
exception can be raised. -/
theorem c7_burnin_fallback (st : TurbineState) (u : Update)
    (hf : decimationFires (pushVib st u.vibration))
    (hc : st.trendCount + 1 < BUFFER_SIZE) :
    (processUpdate st u).currentPdM.degradationSlope = 0 ∧
    (processUpdate st u).currentPdM.estimatedRUL = 999 := by
  have h1 : st.trendCount < BUFFER_SIZE := by omega
  have h2 : ¬ ((st.trendCount + 1 : ℕ) ≥ BUFFER_SIZE) := by omega
  rw [processUpdate_fires st u hf]
  unfold firingUpdate
  simp only [pushTrend, pushVib, if_pos h1, if_neg h2]
  simp [hysteresisStep]

/-- Claim C7 witness: the burn-in fallback on the concrete firing tick of
the 50-sample run (trend count 0 beforehand). -/
theorem c7_burnin_fallback_witness :
    decimationFires (pushVib (runN 49) u777.vibration) ∧
    (runN 49).trendCount + 1 < BUFFER_SIZE ∧
    ((processUpdate (runN 49) u777).currentPdM.degradationSlope = 0 ∧
      (processUpdate (runN 49) u777).currentPdM.estimatedRUL = 999) :=
  ⟨by decide, by decide, c7_burnin_fallback (runN 49) u777 (by decide) (by decide)⟩

/-- Claim C9: under the worker bookkeeping invariant, a processed sample
that does not fire the decimation condition leaves the externally visible
snapshot unchanged (the step degenerates to the raw push, which only
advances the window and the counter); the condition fires exactly when the
incremented counter reaches the window size with a fully populated window;
and firing resets the counter to 0. -/
theorem c9_snapshot_gated (st : TurbineState) (u : Update) (hInv : pdmInv st) :
    (¬ decimationFires (pushVib st u.vibration) →
        processUpdate st u = pushVib st u.vibration ∧
        (processUpdate st u).currentPdM = st.currentPdM ∧
        (processUpdate st u).pointsSinceLastProcess = st.pointsSinceLastProcess + 1) ∧
    (decimationFires (pushVib st u.vibration) ↔
        st.pointsSinceLastProcess + 1 = RAW_BUFFER_SIZE ∧
        (pushVib st u.vibration).vibCount = RAW_BUFFER_SIZE) ∧
    (decimationFires (pushVib st u.vibration) →
        (processUpdate st u).pointsSinceLastProcess = 0) := by
  obtain ⟨h1, h2, h3⟩ := hInv
  refine ⟨fun h => ?_, ?_, fun h => ?_⟩
  · rw [processUpdate_skip st u h]
    exact ⟨rfl, rfl, rfl⟩
  · show ((if st.vibCount < RAW_BUFFER_SIZE then st.vibCount + 1 else st.vibCount)
        ≥ RAW_BUFFER_SIZE ∧ st.pointsSinceLastProcess + 1 ≥ RAW_BUFFER_SIZE) ↔
      (st.pointsSinceLastProcess + 1 = RAW_BUFFER_SIZE ∧
        (if st.vibCount < RAW_BUFFER_SIZE then st.vibCount + 1 else st.vibCount)
          = RAW_BUFFER_SIZE)
    by_cases hv : st.vibCount < RAW_BUFFER_SIZE
    · simp only [hv, if_true]
      omega
    · simp only [hv, if_false]
      omega
  · rw [processUpdate_fires st u h]
    exact firingUpdate_points _ _

/-- Claim C9 witness: the first sample on a fresh state does not fire and
leaves the snapshot untouched. -/
theorem c9_snapshot_gated_witness :
    processUpdate TurbineState.init u777 = pushVib TurbineState.init u777.vibration ∧
    (processUpdate TurbineState.init u777).currentPdM = TurbineState.init.currentPdM ∧
    (processUpdate TurbineState.init u777).pointsSinceLastProcess =
      TurbineState.init.pointsSinceLastProcess + 1 :=
  (c9_snapshot_gated TurbineState.init u777 (by decide)).1 (by decide)

/-- Claim C10: the temperature path is decimated with the amplitude path.
On a non-firing sample the temperature EMA state and the snapshot are
untouched, and the resulting state does not depend on the temperature the
sample carried at all (two samples differing only in temperature and id
produce identical states); on a firing sample the temperature EMA cell and
the snapshot's smoothed temperature are recomputed from that sample's
temperature with the slow coefficient 0.05. -/
theorem c10_temp_decimated (st : TurbineState) (u u2 : Update) :
    (¬ decimationFires (pushVib st u.vibration) →
        (processUpdate st u).lastTempEMA = st.lastTempEMA ∧
        (processUpdate st u).currentPdM = st.currentPdM ∧
        (u2.timestamp = u.timestamp → u2.vibration = u.vibration →
          processUpdate st u2 = processUpdate st u)) ∧
    (decimationFires (pushVib st u.vibration) →
        (processUpdate st u).lastTempEMA =
          some (calculateEMA u.temperature st.lastTempEMA (1 / 20)) ∧
        (processUpdate st u).currentPdM.smoothedTemperature =
          calculateEMA u.temperature st.lastTempEMA (1 / 20)) := by
  refine ⟨fun h => ?_, fun h => ?_⟩
  · rw [processUpdate_skip st u h]
    refine ⟨rfl, rfl, fun ht hv => ?_⟩
    have h2 : ¬ decimationFires (pushVib st u2.vibration) := h
    rw [processUpdate_skip st u2 h2, hv]
  · rw [processUpdate_fires st u h]
    exact ⟨firingUpdate_lastTempEMA _ _, rfl⟩

/-- Claim C10 witness: on the fresh state the first sample does not fire;
a sample with a different temperature (and id) produces the identical
state, and the 50th sample of the constant run does fire and folds its
temperature into the EMA cell. -/
theorem c10_temp_decimated_witness :
    ((processUpdate TurbineState.init u777).lastTempEMA = TurbineState.init.lastTempEMA ∧
      processUpdate TurbineState.init
          { id := "T-02", timestamp := 777, vibration := 5, temperature := 333 }
        = processUpdate TurbineState.init u777) ∧
    (processUpdate (runN 49) u777).lastTempEMA =
      some (calculateEMA u777.temperature (runN 49).lastTempEMA (1 / 20)) := by
  refine ⟨⟨?_, ?_⟩, ?_⟩
  · exact ((c10_temp_decimated TurbineState.init u777 u777).1 (by decide)).1
  · exact ((c10_temp_decimated TurbineState.init u777
      { id := "T-02", timestamp := 777, vibration := 5, temperature := 333 }).1
        (by decide)).2.2 rfl rfl
  · exact ((c10_temp_decimated (runN 49) u777 u777).2 (by decide)).1

/-- The four-sum accumulator loop equals the four list sums. -/
theorem slope_sums (l : List (ℚ × ℚ)) (a b c d : ℚ) :
    l.foldl (fun (acc : ℚ × ℚ × ℚ × ℚ) p =>
      (acc.1 + p.1, acc.2.1 + p.2, acc.2.2.1 + p.1 * p.2, acc.2.2.2 + p.1 * p.1))
      (a, b, c, d)
    = (a + (l.map Prod.fst).sum, b + (l.map Prod.snd).sum,
       c + (l.map (fun p => p.1 * p.2)).sum, d + (l.map (fun p => p.1 * p.1)).sum) := by
  induction l generalizing a b c d with
  | nil => simp
  | cons p t ih =>
    simp only [List.foldl_cons, List.map_cons, List.sum_cons, ih, Prod.mk.injEq]
    refine ⟨by ring, by ring, by ring, by ring⟩

/-- The mean-based slope computation of the source equals the textbook
ordinary-least-squares slope with the degenerate cases mapped to 0. -/
theorem slopeOfPoints_eq_spec (pts : List (ℚ × ℚ)) :
    slopeOfPoints pts = olsSlopeSpec pts := by
  unfold slopeOfPoints olsSlopeSpec
  by_cases hlen : pts.length < 2
  · rw [if_pos hlen, if_neg]
    intro h
    omega
  · rw [if_neg hlen]
    simp only [slope_sums, zero_add]
    set N : ℚ := (pts.length : ℚ) with hN
    set Sx := (pts.map Prod.fst).sum with hSx
    set Sy := (pts.map Prod.snd).sum with hSy
    set Sxy := (pts.map (fun p => p.1 * p.2)).sum with hSxy
    set Sxx := (pts.map (fun p => p.1 * p.1)).sum with hSxx
    have hNz : N ≠ 0 := by
      rw [hN]
      exact_mod_cast Nat.pos_iff_ne_zero.mp (by omega)
    have hden : Sxx - N * (Sx / N) * (Sx / N) = (N * Sxx - Sx * Sx) / N := by
      field_simp
      ring
    have hnum : Sxy - N * (Sx / N) * (Sy / N) = (N * Sxy - Sx * Sy) / N := by
      field_simp
      ring
    rw [hden, hnum]
    by_cases hD : N * Sxx - Sx * Sx = 0
    · rw [hD]
      simp
    · have hq : (N * Sxx - Sx * Sx) / N ≠ 0 := div_ne_zero hD hNz
      rw [if_neg hq, if_pos ⟨by omega, hD⟩]
      rw [div_div_div_comm, div_self hNz, div_one]

/-- Claim C8: both regression engines (the circular typed-array one of the
worker and the list one of the Historian tail) return exactly the
ordinary-least-squares slope (N Σxy − Σx Σy) / (N Σx² − (Σx)²) over the
populated points when that denominator is nonzero, and 0 when the
denominator vanishes or fewer than 2 points are populated; no division by
zero occurs. -/
theorem c8_regression_ols :
    (∀ (xBuf yBuf : ℕ → ℚ) (head count capacity : ℕ),
      calculateLinearRegressionTyped xBuf yBuf head count capacity =
        olsSlopeSpec ((List.range count).map
          (fun i => (xBuf (bufIdx head count capacity i),
                     yBuf (bufIdx head count capacity i))))) ∧
    (∀ dataPoints : List (ℚ × ℚ),
      calculateLinearRegression dataPoints = olsSlopeSpec dataPoints) :=
  ⟨fun _ _ _ _ _ => slopeOfPoints_eq_spec _,
   fun dataPoints => slopeOfPoints_eq_spec dataPoints⟩

/-- `addAll` preserves the configured capacity. -/
theorem addAll_size (ps : List TelemetryPayload) (h : TelemetryHistorian) :
    (addAll h ps).size = h.size := by
  induction ps generalizing h with
  | nil => rfl
  | cons p t ih => exact ih (h.add p)

/-- `add` writes the updated entry at the payload's own id. -/
theorem add_fleet_self (h : TelemetryHistorian) (p : TelemetryPayload) :
    (h.add p).fleet p.id =
      some (addEnt h.size
        (match h.fleet p.id with | some e => e | none => emptyEnt) p) :=
  Function.update_same _ _ _

/-- `add` leaves every other id untouched. -/
theorem add_fleet_other (h : TelemetryHistorian) (p : TelemetryPayload)
    (id : String) (hne : id ≠ p.id) :
    (h.add p).fleet id = h.fleet id :=
  Function.update_noteq hne _ _

/-- Viewed at one turbine id with an existing entry, a batch of `add`
calls folds exactly the payloads carrying that id over the entry, in
order. -/
theorem addAll_fleet_some (ps : List TelemetryPayload) (h : TelemetryHistorian)
    (id : String) (e : EntState) (he : h.fleet id = some e) :
    (addAll h ps).fleet id =
      some ((ps.filter (fun p => p.id == id)).foldl (addEnt h.size) e) := by
  induction ps generalizing h e with
  | nil => simpa using he
  | cons p t ih =>
    show (addAll (h.add p) t).fleet id = _
    by_cases hp : p.id = id
    · have he2 : (h.add p).fleet id = some (addEnt h.size e p) := by
        subst hp
        rw [add_fleet_self, he]
      rw [ih (h.add p) (addEnt h.size e p) he2]
      have hsz : (h.add p).size = h.size := rfl
      rw [hsz]
      simp [List.filter_cons, hp]
    · have he2 : (h.add p).fleet id = some e := by
        rw [add_fleet_other h p id (Ne.symm hp), he]
      rw [ih (h.add p) e he2]
      have hsz : (h.add p).size = h.size := rfl
      rw [hsz]
      simp [List.filter_cons, hp]

/-- Viewed at a turbine id absent from the fleet, a batch of `add` calls
creates the entry exactly when some payload carries that id, and then folds
the carrying payloads from a fresh entry. -/
theorem addAll_fleet_none (ps : List TelemetryPayload) (h : TelemetryHistorian)
    (id : String) (he : h.fleet id = none) :
    (addAll h ps).fleet id =
      if (ps.filter (fun p => p.id == id)) = [] then none
      else some (entFold h.size (ps.filter (fun p => p.id == id))) := by
  induction ps generalizing h with
  | nil => simpa using he
  | cons p t ih =>
    show (addAll (h.add p) t).fleet id = _
    by_cases hp : p.id = id
    · have he2 : (h.add p).fleet id = some (addEnt h.size emptyEnt p) := by
        subst hp
        rw [add_fleet_self, he]
      rw [addAll_fleet_some t (h.add p) id _ he2]
      have hsz : (h.add p).size = h.size := rfl
      rw [hsz]
      simp [List.filter_cons, hp, entFold]
    · have he2 : (h.add p).fleet id = none := by
        rw [add_fleet_other h p id (Ne.symm hp), he]
      rw [ih (h.add p) he2]
      have hsz : (h.add p).size = h.size := rfl
      rw [hsz]
      simp [List.filter_cons, hp]

/-- Ring-buffer characterization of a fold of `add` effects from a fresh
entry: the count is capped at the capacity, the head walks mod the
capacity, and the populated slots hold exactly the last `min length size`
payloads, the slot of the i-th retained payload being its absolute
position mod the capacity. -/
theorem entFold_spec (size : ℕ) (ps : List TelemetryPayload) :
    (entFold size ps).count = min ps.length size ∧
    (entFold size ps).head = ps.length % size ∧
    ∀ i, i < min ps.length size →
      (entFold size ps).buffer ((ps.length - min ps.length size + i) % size)
        = ps[(ps.length - min ps.length size + i)]? := by
  induction ps using List.reverseRecOn with
  | nil =>
    refine ⟨by simp [entFold, emptyEnt], by simp [entFold, emptyEnt], ?_⟩
    intro i hi
    simp at hi
  | append_singleton l p ih =>
    obtain ⟨ihc, ihh, ihb⟩ := ih
    have hfold : entFold size (l ++ [p]) = addEnt size (entFold size l) p := by
      unfold entFold
      rw [List.foldl_append]
      rfl
    have hlen : (l ++ [p]).length = l.length + 1 := by simp
    refine ⟨?_, ?_, ?_⟩
    · rw [hfold, hlen]
      show (if (entFold size l).count < size then (entFold size l).count + 1
        else (entFold size l).count) = min (l.length + 1) size
      rw [ihc]
      split <;> omega
    · rw [hfold, hlen]
      show ((entFold size l).head + 1) % size = (l.length + 1) % size
      rw [ihh]
      exact Nat.mod_add_mod l.length size 1
    · intro i hi
      rw [hfold, hlen]
      rw [hlen] at hi
      show Function.update (entFold size l).buffer (entFold size l).head (some p)
          ((l.length + 1 - min (l.length + 1) size + i) % size)
        = (l ++ [p])[(l.length + 1 - min (l.length + 1) size + i)]?
      rw [ihh]
      set n := l.length with hn
      set c2 := min (n + 1) size with hc2
      set a := n + 1 - c2 + i with ha
      by_cases hlast : a = n
      · rw [hlast, Function.update_same, hn, List.getElem?_concat_length]
      · have haless : a < n := by omega
        have hne : a % size ≠ n % size := by
          intro hmod
          have hdvd : size ∣ n - a := (Nat.modEq_iff_dvd' (le_of_lt haless)).mp hmod
          have hsle : size ≤ n - a := Nat.le_of_dvd (by omega) hdvd
          have hclt : c2 ≤ size := Nat.min_le_right _ _
          omega
        rw [Function.update_noteq hne]
        set c := min n size with hc
        have h1a : n - c ≤ a := by omega
        have h2a : a - (n - c) < c := by omega
        have hb := ihb (a - (n - c)) h2a
        rw [show n - c + (a - (n - c)) = a from by omega] at hb
        rw [hb]
        exact (List.getElem?_append_left (by omega)).symm

/-- A range filterMap whose body always hits is a map. -/
theorem filterMap_some_range {α : Type} (m : ℕ) (f : ℕ → Option α) (g : ℕ → α)
    (h : ∀ i, i < m → f i = some (g i)) :
    (List.range m).filterMap f = (List.range m).map g := by
  have h2 : ∀ i ∈ List.range m, f i = (some ∘ g) i :=
    fun i hi => h i (List.mem_range.mp hi)
  calc (List.range m).filterMap f
      = (List.range m).filterMap (some ∘ g) := List.filterMap_congr h2
    _ = (List.range m).map g := by rw [List.filterMap_eq_map]

/-- `getRecentEnt` over a folded entry returns exactly the last
`min (min length size) maxCount` payloads, oldest first. -/
theorem getRecentEnt_fold (size : ℕ) (hs : 0 < size)
    (rel : List TelemetryPayload) (k : ℕ) :
    getRecentEnt size (entFold size rel) k
      = rel.drop (rel.length - min (min rel.length size) k) := by
  obtain ⟨hc, hh, hbuf⟩ := entFold_spec size rel
  by_cases h0 : (entFold size rel).count = 0
  · have hn0 : rel.length = 0 := by
      rw [hc] at h0
      omega
    have hrel : rel = [] := List.eq_nil_of_length_eq_zero hn0
    subst hrel
    simp [getRecentEnt, entFold, emptyEnt]
  · rw [hc] at h0
    simp only [getRecentEnt, hc, hh]
    rw [if_neg h0]
    set n := rel.length with hn
    set c := min n size with hcdef
    set fc := min c k with hfcdef
    have hc_le : c ≤ n := Nat.min_le_left _ _
    have hfc_le : fc ≤ c := Nat.min_le_left _ _
    have hstart : (if c < size then 0 else n % size) = (n - c) % size := by
      rcases Nat.lt_or_ge c size with hlt | hge
      · rw [if_pos hlt]
        have hcn : c = n := by omega
        rw [hcn]
        simp
      · rw [if_neg (not_lt.mpr hge)]
        have hcs : c = size := by omega
        have hsn : size ≤ n := by omega
        rw [hcs]
        conv_lhs => rw [show n = (n - size) + size from by omega]
        rw [Nat.add_mod_right]
    have hbody : ∀ i, i < fc → (entFold size rel).buffer
        (((if c < size then 0 else n % size) + (c - fc) + i) % size)
          = some (rel.getD (n - fc + i) (wp 0)) := by
      intro i hi
      have hidx : ((if c < size then 0 else n % size) + (c - fc) + i) % size
          = ((n - c) + ((c - fc) + i)) % size := by
        rw [hstart, Nat.add_assoc]
        exact Nat.mod_add_mod _ _ _
      have hib : (c - fc) + i < c := by omega
      have hbv := hbuf ((c - fc) + i) hib
      rw [hidx, hbv]
      rw [show n - c + (c - fc + i) = n - fc + i from by omega]
      rw [List.getElem?_eq_getElem (by omega)]
      congr 1
      rw [List.getD_eq_getElem?_getD, List.getElem?_eq_getElem (by omega)]
      rfl
    rw [filterMap_some_range fc _ _ hbody]
    apply List.ext_getElem
    · simp only [List.length_map, List.length_range, List.length_drop]
      omega
    · intro j h1 h2
      simp only [List.getElem_map, List.getElem_range, List.getElem_drop]
      rw [List.getD_eq_getElem?_getD, List.getElem?_eq_getElem (by
        simp only [List.length_map, List.length_range] at h1
        omega)]
      rfl

/-- Every entry present in a freshly constructed historian is a fresh
(empty) entry. -/
theorem mkHistorian_fleet (size : ℕ) (id : String) (e : EntState)
    (h : (mkHistorian size).fleet id = some e) : e = emptyEnt := by
  simp only [mkHistorian, Function.update_apply] at h
  split_ifs at h <;> simp_all

/-- Claim C5: for every turbine id, every batch of `add` calls, and every
`maxCount`, `getRecent` returns the `min maxCount storedCount` most
recently added records for that id in chronological order, where
storedCount caps at the capacity; for an id with no records (unknown or
empty) the filter is empty and the result is the empty list. -/
theorem c5_getRecent_recent (size : ℕ) (hs : 0 < size)
    (ps : List TelemetryPayload) (id : String) (k : ℕ) :
    (addAll (mkHistorian size) ps).getRecent id k
      = (ps.filter (fun p => p.id == id)).drop
          ((ps.filter (fun p => p.id == id)).length
            - min (min (ps.filter (fun p => p.id == id)).length size) k) := by
  have hsz : (addAll (mkHistorian size) ps).size = size :=
    addAll_size ps (mkHistorian size)
  rcases hm : (mkHistorian size).fleet id with _ | e
  · have hf := addAll_fleet_none ps (mkHistorian size) id hm
    by_cases hrel : ps.filter (fun p => p.id == id) = []
    · rw [hrel] at hf
      rw [if_pos rfl] at hf
      unfold TelemetryHistorian.getRecent
      rw [hf, hrel]
      simp
    · rw [if_neg hrel] at hf
      unfold TelemetryHistorian.getRecent
      rw [hf, hsz]
      exact getRecentEnt_fold size hs _ k
  · have he : e = emptyEnt := mkHistorian_fleet size id e hm
    subst he
    have hf := addAll_fleet_some ps (mkHistorian size) id emptyEnt hm
    unfold TelemetryHistorian.getRecent
    rw [hf, hsz]
    exact getRecentEnt_fold size hs _ k

/-- Claim C5 witness: the two concrete scenarios of the claim with
capacity 5: adding amplitudes 1..7 then reading 5 gives [3,4,5,6,7];
adding 1..3 then reading 5 gives [1,2,3]. -/
theorem c5_getRecent_recent_witness :
    (addAll (mkHistorian 5) ps7).getRecent t01 5 = [wp 3, wp 4, wp 5, wp 6, wp 7] ∧
    (addAll (mkHistorian 5) ps3).getRecent t01 5 = [wp 1, wp 2, wp 3] :=
  ⟨(c5_getRecent_recent 5 (by norm_num) ps7 t01 5).trans (by decide),
   (c5_getRecent_recent 5 (by norm_num) ps3 t01 5).trans (by decide)⟩

/-- `exportRowsEnt` over a folded entry emits one row per retained payload,
oldest first. -/
theorem exportRowsEnt_fold (size : ℕ) (hs : 0 < size)
    (rel : List TelemetryPayload) :
    exportRowsEnt size (entFold size rel)
      = (rel.drop (rel.length - min rel.length size)).map rowOf := by
  obtain ⟨hc, hh, hbuf⟩ := entFold_spec size rel
  by_cases h0 : (entFold size rel).count = 0
  · have hn0 : rel.length = 0 := by
      rw [hc] at h0
      omega
    have hrel : rel = [] := List.eq_nil_of_length_eq_zero hn0
    subst hrel
    simp [exportRowsEnt, entFold, emptyEnt]
  · rw [hc] at h0
    simp only [exportRowsEnt, hc, hh]
    rw [if_neg h0]
    set n := rel.length with hn
    set c := min n size with hcdef
    have hc_le : c ≤ n := Nat.min_le_left _ _
    have hstart : (if c < size then 0 else n % size) = (n - c) % size := by
      rcases Nat.lt_or_ge c size with hlt | hge
      · rw [if_pos hlt]
        have hcn : c = n := by omega
        rw [hcn]
        simp
      · rw [if_neg (not_lt.mpr hge)]
        have hcs : c = size := by omega
        have hsn : size ≤ n := by omega
        rw [hcs]
        conv_lhs => rw [show n = (n - size) + size from by omega]
        rw [Nat.add_mod_right]
    have hbody : ∀ i, i < c → ((entFold size rel).buffer
        (((if c < size then 0 else n % size) + i) % size)).map rowOf
          = some (rowOf (rel.getD (n - c + i) (wp 0))) := by
      intro i hi
      have hidx : ((if c < size then 0 else n % size) + i) % size
          = ((n - c) + i) % size := by
        rw [hstart]
        exact Nat.mod_add_mod _ _ _
      rw [hidx, hbuf i hi]
      rw [List.getElem?_eq_getElem (by omega)]
      simp only [Option.map_some']
      congr 1
      rw [List.getD_eq_getElem?_getD, List.getElem?_eq_getElem (by omega)]
      rfl
    rw [filterMap_some_range c _ _ hbody]
    apply List.ext_getElem
    · simp only [List.length_map, List.length_range, List.length_drop]
      omega
    · intro j h1 h2
      simp only [List.getElem_map, List.getElem_range, List.getElem_drop]
      congr 1
      rw [List.getD_eq_getElem?_getD, List.getElem?_eq_getElem (by
        simp only [List.length_map, List.length_range] at h1
        omega)]
      rfl

/-- Claim C6 counterexample: a record with rpm 3500 and vibration 5 is
exported with the rpm cell before the vibration (amplitude) cell, so the
emitted row differs from the claimed column order (amplitude before
secondary_raw_value). -/
theorem c6_columns_counterexample :
    exportRows (addAll (mkHistorian 5) [wp 5]) t01 = [rowOf (wp 5)] ∧
    rowOf (wp 5) ≠ specRowOf (wp 5) := by
  constructor
  · decide
  · decide

/-- Claim C6 (amended): for every turbine with retained samples the export
emits one data row per retained sample in chronological order, with the
columns in the order timestamp_iso, secondary_raw_value (rpm), amplitude
(vibration), temperature, condition_label — secondary before amplitude —
and the condition label derived from the static thresholds applied to the
absolute raw amplitude of that row. -/
theorem c6_export_rows (size : ℕ) (hs : 0 < size)
    (ps : List TelemetryPayload) (id : String) :
    exportRows (addAll (mkHistorian size) ps) id
      = ((ps.filter (fun p => p.id == id)).drop
          ((ps.filter (fun p => p.id == id)).length
            - min (ps.filter (fun p => p.id == id)).length size)).map rowOf := by
  have hsz : (addAll (mkHistorian size) ps).size = size :=
    addAll_size ps (mkHistorian size)
  rcases hm : (mkHistorian size).fleet id with _ | e
  · have hf := addAll_fleet_none ps (mkHistorian size) id hm
    by_cases hrel : ps.filter (fun p => p.id == id) = []
    · rw [hrel] at hf
      rw [if_pos rfl] at hf
      unfold exportRows
      rw [hf, hrel]
      simp
    · rw [if_neg hrel] at hf
      unfold exportRows
      rw [hf, hsz]
      exact exportRowsEnt_fold size hs _
  · have he : e = emptyEnt := mkHistorian_fleet size id e hm
    subst he
    have hf := addAll_fleet_some ps (mkHistorian size) id emptyEnt hm
    unfold exportRows
    rw [hf, hsz]
    exact exportRowsEnt_fold size hs _

/-- Claim C6 witness: two records exported in insertion order with the
actual column layout. -/
theorem c6_export_rows_witness :
    exportRows (addAll (mkHistorian 5) [wp 1, wp 2]) t01
      = [rowOf (wp 1), rowOf (wp 2)] :=
  (c6_export_rows 5 (by norm_num) [wp 1, wp 2] t01).trans (by decide)
